import Mathlib

/-!
Verification of the `my_std::any` type-erased value container
(file `my_any.hpp`).  A shallow embedding of the container state and
of every operation the specification talks about, followed by
theorems about their observable behaviour.

Modelling conventions:
* `Ty` is the space of runtime type identifiers (`std::type_info`
  values of storable, decayed object types).  `typeid(void)` — the
  answer of `type()` on an empty container — is represented by
  `none : Option Ty`, since `void` can never be stored.
* `Val` is the space of stored values; `tagOf : Val → Ty` gives the
  decayed static type of a value (`typeid(std::decay_t<ValueType>)`).
* A `std::unique_ptr<placeholder>` is `Option (Nat × Holder Ty Val)`:
  `none` is the null pointer; a non-null pointer carries the address
  of the heap allocation and the pointee, so that storage sharing and
  mutation through extracted pointers can be expressed.
* A possibly-throwing copy constructor of the stored type is a
  parameter `copyVal : Val → Except E Val`; `.error e` models a
  thrown exception `e`.
* Moving a value out leaves `movedFrom v`, some value of the same
  type, in the slot.
-/

set_option linter.unusedSectionVars false

namespace MyStd

/-- `my_std::bad_any_cast`, thrown by the value forms of `any_cast`. -/
inductive bad_any_cast where
  | mk
deriving DecidableEq, Repr

/-- `any::holder<ValueType>`: the stored value together with the type
identifier that its virtual `type()` reports (`typeid(ValueType)`). -/
structure Holder (Ty Val : Type) where
  tag : Ty
  value : Val
deriving DecidableEq, Repr

/-- `my_std::any`: `content` models `std::unique_ptr<placeholder>`,
`none` when null; a non-null pointer is the address of the allocation
paired with the pointee holder. -/
structure Any (Ty Val : Type) where
  content : Option (Nat × Holder Ty Val)
deriving DecidableEq, Repr

variable {Ty Val E : Type} [DecidableEq Ty]

/-- `constexpr any() noexcept = default;` — the empty container. -/
def Any.empty : Any Ty Val := ⟨none⟩

/-- `any(ValueType&& value)` when building the holder cannot fail
(the payload is moved in): stores the value in a fresh
`holder<std::decay_t<ValueType>>` at address `addr`, recording the
decayed static type of the value as the tag. -/
def Any.ofValue (tagOf : Val → Ty) (v : Val) (addr : Nat) : Any Ty Val :=
  ⟨some (addr, ⟨tagOf v, v⟩)⟩

/-- `any(ValueType&& value)` when the holder constructor copies the
incoming value with the possibly-throwing copy constructor
`copyVal`. -/
def Any.ofValueCopy (tagOf : Val → Ty) (copyVal : Val → Except E Val)
    (v : Val) (addr : Nat) : Except E (Any Ty Val) :=
  match copyVal v with
  | .error e => .error e
  | .ok w => .ok ⟨some (addr, ⟨tagOf v, w⟩)⟩

/-- `any(const any& other)`: when the source pointer is non-null,
`other.content->clone()` runs
`make_unique<holder<ValueType>>(value)` — the same recorded tag, the
value copied by `copyVal`, fresh storage at address `fresh`; an empty
source gives an empty container. -/
def Any.copy (copyVal : Val → Except E Val) (a : Any Ty Val)
    (fresh : Nat) : Except E (Any Ty Val) :=
  match a.content with
  | none => .ok ⟨none⟩
  | some (_, h) =>
    match copyVal h.value with
    | .error e => .error e
    | .ok w => .ok ⟨some (fresh, ⟨h.tag, w⟩)⟩

/-- `any(any&& other) noexcept = default;`: the member-wise
`unique_ptr` move takes the pointer and nulls the source.  Returns
(the new container, the source afterwards). -/
def Any.moveCon (a : Any Ty Val) : Any Ty Val × Any Ty Val :=
  (⟨a.content⟩, ⟨none⟩)

/-- `void swap(any& other) noexcept`: `content.swap(other.content)` —
the two pointers are exchanged verbatim, holders and addresses
included.  Returns (`*this` afterwards, `other` afterwards). -/
def Any.swap (a b : Any Ty Val) : Any Ty Val × Any Ty Val :=
  (⟨b.content⟩, ⟨a.content⟩)

/-- `void reset() noexcept { content.reset(); }`. -/
def Any.reset (_a : Any Ty Val) : Any Ty Val := ⟨none⟩

/-- `bool has_value() const noexcept { return content != nullptr; }`. -/
def Any.hasValue (a : Any Ty Val) : Bool := a.content.isSome

/-- `const std::type_info& type() const noexcept`: `none` stands for
`typeid(void)` (the answer when `content` is null); otherwise the
recorded tag reported by the virtual `type()` of the holder. -/
def Any.typeId (a : Any Ty Val) : Option Ty :=
  match a.content with
  | none => none
  | some (_, h) => some h.tag

/-- `any& operator=(const any& rhs) { any(rhs).swap(*this); }` —
copy-and-swap.  If the clone throws, the exception escapes before the
swap runs and the target is untouched.  Returns (the outcome, the
target afterwards). -/
def Any.copyAssign (copyVal : Val → Except E Val) (target rhs : Any Ty Val)
    (fresh : Nat) : Except E Unit × Any Ty Val :=
  match Any.copy copyVal rhs fresh with
  | .error e => (.error e, target)
  | .ok temp => (.ok (), (Any.swap temp target).2)

/-- `any& operator=(any&& rhs) noexcept { any(std::move(rhs)).swap(*this); }`
for distinct objects.  Returns (the target afterwards, the source
afterwards). -/
def Any.moveAssign (target source : Any Ty Val) : Any Ty Val × Any Ty Val :=
  let moved := Any.moveCon source
  ((Any.swap moved.1 target).2, moved.2)

/-- `operator=(any&& rhs)` when `rhs` aliases `*this` (self-move):
`any(std::move(rhs))` first empties `*this` into the temporary, then
`temp.swap(*this)` hands the original pointer straight back. -/
def Any.selfMoveAssign (a : Any Ty Val) : Any Ty Val :=
  let temp : Any Ty Val := ⟨a.content⟩
  let aMoved : Any Ty Val := ⟨none⟩
  (Any.swap temp aMoved).2

/-- `operator=(ValueType&& rhs)`: builds a temporary `any` from the
value (the holder constructor copies it with `copyVal`) and swaps it
in; a throw escapes before the swap runs. -/
def Any.valueAssign (tagOf : Val → Ty) (copyVal : Val → Except E Val)
    (target : Any Ty Val) (v : Val) (fresh : Nat) :
    Except E Unit × Any Ty Val :=
  match Any.ofValueCopy tagOf copyVal v fresh with
  | .error e => (.error e, target)
  | .ok temp => (.ok (), (Any.swap temp target).2)

/-- A store through a `T*` that points into a holder allocation: the
container is affected exactly when its own holder lives at the
written address (the type of the slot is unchanged — the pointee type
is `T`). -/
def Any.writeAt (addr : Nat) (w : Val) (a : Any Ty Val) : Any Ty Val :=
  match a.content with
  | none => a
  | some (a0, h) => if a0 = addr then ⟨some (a0, ⟨h.tag, w⟩)⟩ else a

/-- `T* any_cast(any* operand) noexcept` (and the `const` overload),
called on `&a`, never on the null pointer: returns null unless
`operand->type() == typeid(T)` exactly (an empty container answers
`typeid(void)`, which is never `typeid(T)`); on success, the address
of and the value in the designated holder slot. -/
def anyCastPtr (t : Ty) (a : Any Ty Val) : Option (Nat × Val) :=
  match a.content with
  | none => none
  | some (addr, h) => if h.tag = t then some (addr, h.value) else none

/-- `T any_cast(const any& operand)` and `T any_cast(any& operand)`:
delegate to the pointer form and throw `bad_any_cast` when it is
null; the container itself is not modified, so the pair carries it
back unchanged. -/
def anyCastVal (t : Ty) (a : Any Ty Val) :
    Except bad_any_cast Val × Any Ty Val :=
  match anyCastPtr t a with
  | none => (.error .mk, a)
  | some (_, v) => (.ok v, a)

/-- `T any_cast(any&& operand)`: delegates to the pointer form and
throws `bad_any_cast` when it is null; on success returns
`std::move(*result)`, which moves the held value out and leaves a
moved-from value of the same type in the same holder slot — the
container is not cleared. -/
def anyCastRval (movedFrom : Val → Val) (t : Ty) (a : Any Ty Val) :
    Except bad_any_cast Val × Any Ty Val :=
  match anyCastPtr t a with
  | none => (.error .mk, a)
  | some (addr, v) => (.ok v, Any.writeAt addr (movedFrom v) a)

/-- Representation invariant of the container: `has_value()` answers
exactly non-nullness of the pointer, and a live holder records as its
tag the decayed static type of the value it holds — which is also
what `type()` answers. -/
def Inv (tagOf : Val → Ty) (a : Any Ty Val) : Prop :=
  (a.hasValue = true ↔ a.content ≠ none) ∧
  ∀ addr h, a.content = some (addr, h) →
    h.tag = tagOf h.value ∧ a.typeId = some h.tag

/-- A concrete two-type universe used to evaluate the theorems on
closed inputs: `int` values carry tag `0`, `bool` values tag `1`. -/
def ctag : Int ⊕ Bool → Nat
  | .inl _ => 0
  | .inr _ => 1

/-- A concrete holder over the two-type universe. -/
def cHolder (t : Nat) (v : Int ⊕ Bool) : Holder Nat (Int ⊕ Bool) := ⟨t, v⟩

/-- A concrete copy constructor that always succeeds and copies the
value unchanged. -/
def cOk : Int ⊕ Bool → Except Nat (Int ⊕ Bool) := fun x => .ok x

/-- A concrete copy constructor that always throws exception `9`. -/
def cThrow : Int ⊕ Bool → Except Nat (Int ⊕ Bool) := fun _ => .error 9

/-- A concrete moved-from state: a moved-from `int` becomes `int 0`,
a moved-from `bool` becomes `bool false` — the type is preserved. -/
def cMoved : Int ⊕ Bool → Int ⊕ Bool
  | .inl _ => .inl 0
  | .inr _ => .inr false

/-- A concrete container for closed evaluation: it holds `int 3` at
address `1`. -/
def wA : Any Nat (Int ⊕ Bool) := Any.ofValue ctag (.inl 3) 1

/-- A concrete empty container for closed evaluation. -/
def wB : Any Nat (Int ⊕ Bool) := Any.empty

/-- C1: storing a value `v` of concrete type `tagOf v` and then
pointer-extracting as that same type yields a non-null pointer to a
value equal to `v`; pointer-extracting as any different type
identifier `u` yields the null pointer — no implicit conversion is
ever performed, the comparison is exact type identity. -/
theorem c1_roundtrip_pointer_extraction (tagOf : Val → Ty) (v : Val)
    (addr : Nat) (u : Ty) (hne : u ≠ tagOf v) :
    anyCastPtr (tagOf v) (Any.ofValue tagOf v addr) = some (addr, v) ∧
    anyCastPtr u (Any.ofValue tagOf v addr) = none := by
  refine ⟨?_, ?_⟩
  · simp [anyCastPtr, Any.ofValue]
  · simp [anyCastPtr, Any.ofValue, Ne.symm hne]

/-- Closed evaluation of the C1 theorem: an `int` value `42` stored at
address `7`, probed with the `int` tag and with the `bool` tag. -/
theorem c1_roundtrip_pointer_extraction_witness :
    (1 : Nat) ≠ ctag (.inl 42) ∧
    (anyCastPtr (ctag (.inl 42)) (Any.ofValue ctag (.inl 42) 7) =
        some (7, Sum.inl 42) ∧
      anyCastPtr 1 (Any.ofValue ctag (.inl 42) 7) = none) :=
  ⟨by decide, c1_roundtrip_pointer_extraction ctag (.inl 42) 7 1 (by decide)⟩

/-- C2: the throwing value forms of `any_cast` fail exactly when the
pointer form returns null — exactly when the container is empty or
its recorded type identifier differs from the requested one — the
lvalue value forms never change the container, a failed rvalue value
form leaves the container unchanged, and the pointer form is a total
function of the state (it never throws). -/
theorem c2_value_forms_fail_iff_pointer_null (movedFrom : Val → Val)
    (t : Ty) (a : Any Ty Val) :
    (anyCastPtr t a = none ↔ (a.content = none ∨ a.typeId ≠ some t)) ∧
    ((anyCastVal t a).1 = .error .mk ↔ anyCastPtr t a = none) ∧
    (anyCastVal t a).2 = a ∧
    ((anyCastRval movedFrom t a).1 = .error .mk ↔ anyCastPtr t a = none) ∧
    (anyCastPtr t a = none → (anyCastRval movedFrom t a).2 = a) := by
  obtain ⟨c⟩ := a
  match c with
  | none =>
    simp [anyCastPtr, anyCastVal, anyCastRval, Any.typeId]
  | some (addr, h) =>
    by_cases ht : h.tag = t
    · simp [anyCastPtr, anyCastVal, anyCastRval, Any.typeId, ht]
    · simp [anyCastPtr, anyCastVal, anyCastRval, Any.typeId, ht]

/-- Closed evaluation of the C2 theorem on a container holding the
`int` value `5`, probed with the `bool` tag (a mismatch). -/
theorem c2_value_forms_fail_iff_pointer_null_witness :
    (anyCastPtr 1 (Any.ofValue ctag (.inl 5) 3) = none ↔
      ((Any.ofValue ctag (.inl 5) 3).content = none ∨
        (Any.ofValue ctag (.inl 5) 3).typeId ≠ some 1)) ∧
    ((anyCastVal 1 (Any.ofValue ctag (.inl 5) 3)).1 = .error .mk ↔
      anyCastPtr 1 (Any.ofValue ctag (.inl 5) 3) = none) ∧
    (anyCastVal 1 (Any.ofValue ctag (.inl 5) 3)).2 =
      Any.ofValue ctag (.inl 5) 3 ∧
    ((anyCastRval id 1 (Any.ofValue ctag (.inl 5) 3)).1 = .error .mk ↔
      anyCastPtr 1 (Any.ofValue ctag (.inl 5) 3) = none) ∧
    (anyCastPtr 1 (Any.ofValue ctag (.inl 5) 3) = none →
      (anyCastRval id 1 (Any.ofValue ctag (.inl 5) 3)).2 =
        Any.ofValue ctag (.inl 5) 3) :=
  c2_value_forms_fail_iff_pointer_null id 1 (Any.ofValue ctag (.inl 5) 3)

/-- C4: copy assignment and value assignment are strong-exception-safe
by copy-and-swap: when the copy constructor of the incoming value
throws while the temporary is being built, the very same exception
propagates and the target container is returned unchanged — it still
holds its original value with its original type. -/
theorem c4_assignment_strong_guarantee (tagOf : Val → Ty)
    (copyVal : Val → Except E Val) (target rhs : Any Ty Val)
    (fresh addr : Nat) (h : Holder Ty Val) (e : E) (v : Val)
    (hrhs : rhs.content = some (addr, h))
    (hthrow : copyVal h.value = .error e)
    (hvthrow : copyVal v = .error e) :
    Any.copyAssign copyVal target rhs fresh = (.error e, target) ∧
    Any.valueAssign tagOf copyVal target v fresh = (.error e, target) := by
  refine ⟨?_, ?_⟩
  · simp [Any.copyAssign, Any.copy, hrhs, hthrow]
  · simp [Any.valueAssign, Any.ofValueCopy, hvthrow]

/-- Closed evaluation of the C4 theorem: a copy constructor that
always throws exception `9`, a target holding `int 1`, a right-hand
side holding `int 2`. -/
theorem c4_assignment_strong_guarantee_witness :
    (Any.ofValue ctag (.inl 2) 4).content = some (4, cHolder 0 (.inl 2)) ∧
    cThrow (cHolder 0 (.inl 2)).value = .error 9 ∧
    cThrow (.inl 2) = .error 9 ∧
    (Any.copyAssign cThrow (Any.ofValue ctag (.inl 1) 8)
        (Any.ofValue ctag (.inl 2) 4) 5 =
      (.error 9, Any.ofValue ctag (.inl 1) 8) ∧
    Any.valueAssign ctag cThrow (Any.ofValue ctag (.inl 1) 8)
        (.inl 2) 5 =
      (.error 9, Any.ofValue ctag (.inl 1) 8)) :=
  ⟨rfl, rfl, rfl,
    c4_assignment_strong_guarantee ctag cThrow
      (Any.ofValue ctag (.inl 1) 8) (Any.ofValue ctag (.inl 2) 4)
      5 4 (cHolder 0 (.inl 2)) 9 (.inl 2) rfl rfl rfl⟩

/-- C5: copy construction is a deep, independent copy: an empty source
copies to an empty container; a source holding a value copies — via
the holder clone — to a holder with an equal value and the same tag
in its own fresh storage; the mutable pointer extracted from the copy
points at the fresh address, and a write through it leaves the
original container, hence the value observed through it, unchanged. -/
theorem c5_copy_independence (copyVal : Val → Except E Val)
    (a : Any Ty Val) (addr fresh : Nat) (h : Holder Ty Val) (w : Val)
    (hcopy : ∀ x, copyVal x = .ok x)
    (hsrc : a.content = some (addr, h)) (hfresh : fresh ≠ addr) :
    Any.copy copyVal (⟨none⟩ : Any Ty Val) fresh = .ok ⟨none⟩ ∧
    Any.copy copyVal a fresh = .ok ⟨some (fresh, h)⟩ ∧
    anyCastPtr h.tag (⟨some (fresh, h)⟩ : Any Ty Val) =
      some (fresh, h.value) ∧
    Any.writeAt fresh w a = a := by
  refine ⟨rfl, ?_, ?_, ?_⟩
  · simp [Any.copy, hsrc, hcopy]
  · simp [anyCastPtr]
  · simp [Any.writeAt, hsrc, Ne.symm hfresh]

/-- Closed evaluation of the C5 theorem: the source holds `int 11` at
address `2`, the copy is cloned into fresh address `6`, and `int 99`
is written through the pointer extracted from the copy. -/
theorem c5_copy_independence_witness :
    (∀ x : Int ⊕ Bool, cOk x = .ok x) ∧
    (Any.ofValue ctag (.inl 11) 2).content = some (2, cHolder 0 (.inl 11)) ∧
    (6 : Nat) ≠ 2 ∧
    (Any.copy cOk (⟨none⟩ : Any Nat (Int ⊕ Bool)) 6 = .ok ⟨none⟩ ∧
      Any.copy cOk (Any.ofValue ctag (.inl 11) 2) 6 =
        .ok ⟨some (6, cHolder 0 (.inl 11))⟩ ∧
      anyCastPtr (cHolder 0 (.inl 11)).tag
          (⟨some (6, cHolder 0 (.inl 11))⟩ : Any Nat (Int ⊕ Bool)) =
        some (6, (cHolder 0 (.inl 11)).value) ∧
      Any.writeAt 6 (.inl 99) (Any.ofValue ctag (.inl 11) 2) =
        Any.ofValue ctag (.inl 11) 2) :=
  ⟨fun _ => rfl, rfl, by decide,
    c5_copy_independence cOk (Any.ofValue ctag (.inl 11) 2)
      2 6 (cHolder 0 (.inl 11)) (.inl 99) (fun _ => rfl) rfl (by decide)⟩

/-- C8: a successful rvalue value-form extraction returns the held
value (moved out) but does not clear the container: afterwards
`has_value()` is still `true`, `type()` is unchanged, and the same
holder slot now carries the moved-from value of the same type. -/
theorem c8_rvalue_extraction_not_cleared (movedFrom : Val → Val)
    (t : Ty) (a : Any Ty Val) (addr : Nat) (h : Holder Ty Val)
    (hsrc : a.content = some (addr, h)) (hmatch : h.tag = t) :
    (anyCastRval movedFrom t a).1 = .ok h.value ∧
    (anyCastRval movedFrom t a).2.hasValue = true ∧
    (anyCastRval movedFrom t a).2.typeId = a.typeId ∧
    (anyCastRval movedFrom t a).2.content =
      some (addr, ⟨h.tag, movedFrom h.value⟩) := by
  subst hmatch
  obtain ⟨c⟩ := a
  obtain rfl : c = some (addr, h) := hsrc
  refine ⟨?_, ?_, ?_, ?_⟩ <;>
    simp [anyCastRval, anyCastPtr, Any.writeAt, Any.hasValue, Any.typeId]

/-- Closed evaluation of the C8 theorem: moving the `int` value `13`
out of a container (the moved-from slot keeps tag `0` and gets the
moved-from value `int 0`). -/
theorem c8_rvalue_extraction_not_cleared_witness :
    (Any.ofValue ctag (.inl 13) 9).content = some (9, cHolder 0 (.inl 13)) ∧
    (cHolder 0 (.inl 13)).tag = (0 : Nat) ∧
    ((anyCastRval cMoved 0 (Any.ofValue ctag (.inl 13) 9)).1 =
        .ok (cHolder 0 (.inl 13)).value ∧
      (anyCastRval cMoved 0 (Any.ofValue ctag (.inl 13) 9)).2.hasValue =
        true ∧
      (anyCastRval cMoved 0 (Any.ofValue ctag (.inl 13) 9)).2.typeId =
        (Any.ofValue ctag (.inl 13) 9).typeId ∧
      (anyCastRval cMoved 0 (Any.ofValue ctag (.inl 13) 9)).2.content =
        some (9, ⟨(cHolder 0 (.inl 13)).tag,
          cMoved (cHolder 0 (.inl 13)).value⟩)) :=
  ⟨rfl, rfl,
    c8_rvalue_extraction_not_cleared cMoved 0
      (Any.ofValue ctag (.inl 13) 9) 9 (cHolder 0 (.inl 13)) rfl rfl⟩

/-- C3: a default-constructed container has `has_value() == false`,
`type()` equal to the identifier for `void`, pointer-form extraction
of every type on it returns null, and value-form extraction of every
type on it throws `bad_any_cast`; `hasValue` and `typeId` are total
functions of the state, so they never throw. -/
theorem c3_empty_contract (t : Ty) :
    (Any.empty : Any Ty Val).hasValue = false ∧
    (Any.empty : Any Ty Val).typeId = none ∧
    anyCastPtr t (Any.empty : Any Ty Val) = none ∧
    (anyCastVal t (Any.empty : Any Ty Val)).1 = .error .mk := by
  refine ⟨rfl, rfl, rfl, rfl⟩

/-- C6: move construction and move assignment between distinct
containers transfer the holder: the destination afterwards has the
prior content (hence the prior `has_value` and held value) of the
source, the source is empty afterwards, and both operations are total
functions of the states — they never throw. -/
theorem c6_move_empties_source (b a : Any Ty Val) :
    ((Any.moveCon a).1.content = a.content ∧
      (Any.moveCon a).1.hasValue = a.hasValue ∧
      (Any.moveCon a).2.hasValue = false) ∧
    ((Any.moveAssign b a).1.content = a.content ∧
      (Any.moveAssign b a).1.hasValue = a.hasValue ∧
      (Any.moveAssign b a).2.hasValue = false) := by
  refine ⟨⟨rfl, rfl, rfl⟩, ⟨rfl, rfl, rfl⟩⟩

/-- C7: `swap` exchanges exactly the two held holder pointers —
addresses included, so no copy or move of the stored values and no
allocation happens — it is a total function (never throws), and
`a.swap(b)` followed by `b.swap(a)` restores both containers. -/
theorem c7_swap_exchange_involution (a b : Any Ty Val) :
    (Any.swap a b).1.content = b.content ∧
    (Any.swap a b).2.content = a.content ∧
    Any.swap (Any.swap a b).2 (Any.swap a b).1 = (b, a) := by
  refine ⟨rfl, rfl, rfl⟩

/-- C10: self-move-assignment preserves the container instead of
emptying it: the temporary takes the pointer and the swap hands it
straight back, so the value, `has_value` and `type` are unchanged. -/
theorem c10_self_move_preserves (a : Any Ty Val) :
    Any.selfMoveAssign a = a ∧
    (Any.selfMoveAssign a).hasValue = a.hasValue ∧
    (Any.selfMoveAssign a).typeId = a.typeId := by
  refine ⟨rfl, rfl, rfl⟩

/-- Helper: the invariant holds of a container with content `c` as
soon as every holder in `c` records the static type of its value. -/
theorem inv_of_content (tagOf : Val → Ty) (c : Option (Nat × Holder Ty Val))
    (hc : ∀ addr h, c = some (addr, h) → h.tag = tagOf h.value) :
    Inv tagOf (⟨c⟩ : Any Ty Val) := by
  rcases c with _ | ⟨addr0, h0⟩
  · exact ⟨by simp [Any.hasValue], by intro addr h hh; cases hh⟩
  · refine ⟨by simp [Any.hasValue], ?_⟩
    intro addr h hh
    obtain ⟨rfl, rfl⟩ : addr0 = addr ∧ h0 = h := by simpa using hh
    exact ⟨hc addr0 h0 rfl, rfl⟩

/-- Helper: the tag facts contained in the invariant. -/
theorem Inv.tags {tagOf : Val → Ty} {a : Any Ty Val} (ha : Inv tagOf a) :
    ∀ addr h, a.content = some (addr, h) → h.tag = tagOf h.value :=
  fun addr h hh => (ha.2 addr h hh).1

/-- Helper: the empty container satisfies the invariant. -/
theorem inv_empty (tagOf : Val → Ty) : Inv tagOf (Any.empty : Any Ty Val) :=
  inv_of_content tagOf none (by intro addr h hh; cases hh)

/-- Helper: value construction satisfies the invariant — the recorded
tag is exactly the static type of the stored value. -/
theorem inv_ofValue (tagOf : Val → Ty) (v : Val) (addr : Nat) :
    Inv tagOf (Any.ofValue tagOf v addr) := by
  apply inv_of_content
  intro addr2 h hh
  obtain ⟨rfl, rfl⟩ : addr = addr2 ∧ (⟨tagOf v, v⟩ : Holder Ty Val) = h := by
    simpa using hh
  rfl

/-- Helper: a successful copy construction preserves the invariant,
given that the copy constructor of the stored type preserves the
static type of the value it copies. -/
theorem inv_copy (tagOf : Val → Ty) (copyVal : Val → Except E Val)
    (a : Any Ty Val) (fresh : Nat) (c : Any Ty Val)
    (ha : Inv tagOf a)
    (hcv : ∀ x y, copyVal x = .ok y → tagOf y = tagOf x)
    (hc : Any.copy copyVal a fresh = .ok c) :
    Inv tagOf c := by
  obtain ⟨ca⟩ := a
  rcases ca with _ | ⟨addr0, h0⟩
  · obtain rfl : (⟨none⟩ : Any Ty Val) = c := by simpa [Any.copy] using hc
    exact inv_empty tagOf
  · have htag : h0.tag = tagOf h0.value := Inv.tags ha addr0 h0 rfl
    cases hw : copyVal h0.value with
    | error e => simp [Any.copy, hw] at hc
    | ok w =>
      obtain rfl : (⟨some (fresh, ⟨h0.tag, w⟩)⟩ : Any Ty Val) = c := by
        simpa [Any.copy, hw] using hc
      apply inv_of_content
      intro addr2 h hh
      obtain ⟨rfl, rfl⟩ :
          fresh = addr2 ∧ (⟨h0.tag, w⟩ : Holder Ty Val) = h := by
        simpa using hh
      show h0.tag = tagOf w
      rw [hcv h0.value w hw, htag]

/-- Helper: copy assignment leaves a container satisfying the
invariant, whether the clone succeeds or throws. -/
theorem inv_copyAssign (tagOf : Val → Ty) (copyVal : Val → Except E Val)
    (target rhs : Any Ty Val) (fresh : Nat)
    (htarget : Inv tagOf target) (hrhs : Inv tagOf rhs)
    (hcv : ∀ x y, copyVal x = .ok y → tagOf y = tagOf x) :
    Inv tagOf (Any.copyAssign copyVal target rhs fresh).2 := by
  cases hc : Any.copy copyVal rhs fresh with
  | error e =>
    unfold Any.copyAssign
    rw [hc]
    exact htarget
  | ok temp =>
    unfold Any.copyAssign
    rw [hc]
    exact inv_copy tagOf copyVal rhs fresh temp hrhs hcv hc

/-- Helper: value assignment leaves a container satisfying the
invariant, whether the copy of the incoming value succeeds or
throws. -/
theorem inv_valueAssign (tagOf : Val → Ty) (copyVal : Val → Except E Val)
    (target : Any Ty Val) (v : Val) (fresh : Nat)
    (htarget : Inv tagOf target)
    (hcv : ∀ x y, copyVal x = .ok y → tagOf y = tagOf x) :
    Inv tagOf (Any.valueAssign tagOf copyVal target v fresh).2 := by
  cases hw : copyVal v with
  | error e =>
    unfold Any.valueAssign Any.ofValueCopy
    rw [hw]
    exact htarget
  | ok w =>
    unfold Any.valueAssign Any.ofValueCopy
    rw [hw]
    apply inv_of_content
    intro addr2 h hh
    obtain ⟨rfl, rfl⟩ :
        fresh = addr2 ∧ (⟨tagOf v, w⟩ : Holder Ty Val) = h := by
      simpa using hh
    show tagOf v = tagOf w
    rw [hcv v w hw]

/-- Helper: the container left behind by an rvalue extraction
satisfies the invariant, given that a moved-from value keeps its
type. -/
theorem inv_anyCastRval (tagOf : Val → Ty) (movedFrom : Val → Val)
    (t : Ty) (a : Any Ty Val) (ha : Inv tagOf a)
    (hmv : ∀ x, tagOf (movedFrom x) = tagOf x) :
    Inv tagOf (anyCastRval movedFrom t a).2 := by
  obtain ⟨ca⟩ := a
  rcases ca with _ | ⟨addr0, h0⟩
  · exact ha
  · have htag : h0.tag = tagOf h0.value := Inv.tags ha addr0 h0 rfl
    by_cases ht : h0.tag = t
    · have : (anyCastRval movedFrom t (⟨some (addr0, h0)⟩ : Any Ty Val)).2 =
          ⟨some (addr0, ⟨h0.tag, movedFrom h0.value⟩)⟩ := by
        simp [anyCastRval, anyCastPtr, Any.writeAt, ht]
      rw [this]
      apply inv_of_content
      intro addr2 h hh
      obtain ⟨rfl, rfl⟩ : addr0 = addr2 ∧
          (⟨h0.tag, movedFrom h0.value⟩ : Holder Ty Val) = h := by
        simpa using hh
      show h0.tag = tagOf (movedFrom h0.value)
      rw [hmv h0.value, htag]
    · have : (anyCastRval movedFrom t (⟨some (addr0, h0)⟩ : Any Ty Val)).2 =
          ⟨some (addr0, h0)⟩ := by
        simp [anyCastRval, anyCastPtr, ht]
      rw [this]
      exact ha

/-- C9: every operation of the container preserves the representation
invariant: `has_value()` is true exactly when the holder indirection
is non-null, and a live holder records as its tag the decayed static
type of the value it holds (which is what `type()` reports).  The
hypotheses say that the containers started in the invariant, that the
copy constructor of the stored type preserves the static type, and
that a moved-from value keeps its type. -/
theorem c9_invariant_preservation (tagOf : Val → Ty)
    (copyVal : Val → Except E Val) (movedFrom : Val → Val)
    (a b : Any Ty Val) (v : Val) (t : Ty) (fresh : Nat)
    (ha : Inv tagOf a) (hb : Inv tagOf b)
    (hcv : ∀ x y, copyVal x = .ok y → tagOf y = tagOf x)
    (hmv : ∀ x, tagOf (movedFrom x) = tagOf x) :
    Inv tagOf (Any.empty : Any Ty Val) ∧
    Inv tagOf (Any.ofValue tagOf v fresh) ∧
    (∀ c, Any.copy copyVal a fresh = .ok c → Inv tagOf c) ∧
    Inv tagOf (Any.moveCon a).1 ∧
    Inv tagOf (Any.moveCon a).2 ∧
    Inv tagOf (Any.moveAssign b a).1 ∧
    Inv tagOf (Any.moveAssign b a).2 ∧
    Inv tagOf (Any.swap a b).1 ∧
    Inv tagOf (Any.swap a b).2 ∧
    Inv tagOf (Any.reset a) ∧
    Inv tagOf (Any.selfMoveAssign a) ∧
    Inv tagOf (Any.copyAssign copyVal b a fresh).2 ∧
    Inv tagOf (Any.valueAssign tagOf copyVal b v fresh).2 ∧
    Inv tagOf (anyCastRval movedFrom t a).2 := by
  refine ⟨inv_empty tagOf, inv_ofValue tagOf v fresh,
    fun c hc => inv_copy tagOf copyVal a fresh c ha hcv hc,
    ha, inv_empty tagOf,
    ha, inv_empty tagOf,
    hb, ha,
    inv_empty tagOf,
    ha,
    inv_copyAssign tagOf copyVal b a fresh hb ha hcv,
    inv_valueAssign tagOf copyVal b v fresh hb hcv,
    inv_anyCastRval tagOf movedFrom t a ha hmv⟩

/-- Closed evaluation of the C9 theorem on the concrete universe: a
container holding `int 3`, an empty container, the identity copy
constructor and the type-preserving moved-from map. -/
theorem c9_invariant_preservation_witness :
    Inv ctag wA ∧ Inv ctag wB ∧
    (∀ x y, cOk x = .ok y → ctag y = ctag x) ∧
    (∀ x, ctag (cMoved x) = ctag x) ∧
    (Inv ctag (Any.empty : Any Nat (Int ⊕ Bool)) ∧
      Inv ctag (Any.ofValue ctag (.inl 7) 5) ∧
      (∀ c, Any.copy cOk wA 5 = .ok c → Inv ctag c) ∧
      Inv ctag (Any.moveCon wA).1 ∧
      Inv ctag (Any.moveCon wA).2 ∧
      Inv ctag (Any.moveAssign wB wA).1 ∧
      Inv ctag (Any.moveAssign wB wA).2 ∧
      Inv ctag (Any.swap wA wB).1 ∧
      Inv ctag (Any.swap wA wB).2 ∧
      Inv ctag (Any.reset wA) ∧
      Inv ctag (Any.selfMoveAssign wA) ∧
      Inv ctag (Any.copyAssign cOk wB wA 5).2 ∧
      Inv ctag (Any.valueAssign ctag cOk wB (.inl 7) 5).2 ∧
      Inv ctag (anyCastRval cMoved 0 wA).2) := by
  have hA : Inv ctag wA := inv_ofValue ctag (.inl 3) 1
  have hB : Inv ctag wB := inv_empty ctag
  have hcv : ∀ x y, cOk x = .ok y → ctag y = ctag x := by
    intro x y hxy
    injection hxy with h
    rw [h]
  have hmv : ∀ x, ctag (cMoved x) = ctag x := by
    intro x
    cases x <;> rfl
  exact ⟨hA, hB, hcv, hmv,
    c9_invariant_preservation ctag cOk cMoved wA wB (.inl 7) 0 5
      hA hB hcv hmv⟩

end MyStd
